import Mathlib

/-!
Verification of the `commentlogger` source-to-source transformer
(`src/prod.py`, `src/utils.py`).

Shallow embedding conventions:
* Python strings are Lean `String`s; every text operation the program uses
  (`strip`, `upper`, `lower`, `startswith`, `partition`, `split`,
  `splitlines`, substring membership) is re-implemented over `String.data`
  (a `List Char`) so that concrete evaluation stays kernel-friendly.
  Whitespace is modelled as the ASCII whitespace characters; `splitlines`
  is modelled for `\n`-separated text, the only separator relevant here.
* `ast.parse` is a library primitive that the program calls; it is not code
  of this repository.  A parse outcome is modelled as
  `Option (List PyStmt)`: `none` models a raised `SyntaxError`, and
  `some m` models the node sequence produced by `ast.walk` over the parsed
  tree, in its breadth-first order, restricted to the node kinds the
  program inspects (`Import`, `ImportFrom`, `FunctionDef` /
  `AsyncFunctionDef`); all other walked nodes are `PyStmt.other`.  Every
  loop `for node in ast.walk(tree)` in the source becomes a fold over that
  sequence.  All three `ast.parse` calls in the source parse the same
  `sourceCode`, hence they share one `Option (List PyStmt)` value.
* Python sets of strings are modelled as lists used only through
  membership; the console `print` side effects are ignored.
-/

/-! ### String primitives (models of the Python `str` operations used) -/

def wsChar (c : Char) : Bool :=
  c == ' ' || c == '\t' || c == '\r' || c == '\n'

/-- Model of Python `str.strip()`. -/
def stripS (s : String) : String :=
  String.mk (((s.data.dropWhile wsChar).reverse.dropWhile wsChar).reverse)

/-- Model of Python `str.upper()` (ASCII). -/
def strUpper (s : String) : String :=
  String.mk (s.data.map Char.toUpper)

/-- Model of Python `str.lower()` (ASCII). -/
def strLower (s : String) : String :=
  String.mk (s.data.map Char.toLower)

/-- Model of Python `s.startswith(p)`. -/
def startsWithS (s p : String) : Bool :=
  p.data.isPrefixOf s.data

/-- The text before the first occurrence of `c` (the whole string if `c`
is absent): the first component of `s.partition(c)` / `s.split(c)[0]`. -/
def beforeCh (c : Char) (s : String) : String :=
  String.mk (s.data.takeWhile (fun x => x != c))

/-- The text after the first occurrence of `c` (empty if `c` is absent):
the last component of `s.partition(c)`. -/
def afterCh (c : Char) (s : String) : String :=
  String.mk ((s.data.dropWhile (fun x => x != c)).drop 1)

def subOfAux (pat : List Char) : List Char → Bool
  | [] => pat.isEmpty
  | c :: rest => pat.isPrefixOf (c :: rest) || subOfAux pat rest

/-- Model of Python `pat in s` (substring containment). -/
def strContains (s pat : String) : Bool :=
  subOfAux pat.data s.data

def splitlinesAux : List Char → List Char → List String
  | [], acc => if acc.isEmpty then [] else [String.mk acc.reverse]
  | c :: cs, acc =>
      if c == '\n' then String.mk acc.reverse :: splitlinesAux cs []
      else splitlinesAux cs (c :: acc)

/-- Model of Python `str.splitlines()` for `\n`-separated text: a final
newline does not produce a trailing empty line. -/
def splitlines (s : String) : List String :=
  splitlinesAux s.data []

/-- Model of `'\n'.join(lines)`. -/
def joinNL : List String → String
  | [] => ""
  | [l] => l
  | l :: ls => l ++ "\n" ++ joinNL ls

/-! ### The canonical severity-level table (prod.py lines 5-12)

`logging._nameToLevel` from the host CPython `logging` module, in its
insertion order; the program copies it, removes every name that is a
strict prefix of another name with the same rank, and sorts the surviving
names. -/

def nameToLevel : List (String × Nat) :=
  [("CRITICAL", 50), ("FATAL", 50), ("ERROR", 40), ("WARN", 30),
   ("WARNING", 30), ("INFO", 20), ("DEBUG", 10), ("NOTSET", 0)]

/-- The loop at prod.py lines 8-10 pops `k` exactly when some other name
`_k` starts with `k` and has the same rank. -/
def keptLevel (kv : String × Nat) : Bool :=
  !(nameToLevel.any (fun kv2 =>
      kv2.1 != kv.1 && startsWithS kv2.1 kv.1 && kv.2 == kv2.2))

def dedupedLevels : List (String × Nat) :=
  nameToLevel.filter keptLevel

def charListLe : List Char → List Char → Bool
  | [], _ => true
  | _ :: _, [] => false
  | a :: as, b :: bs => if a == b then charListLe as bs else decide (a < b)

/-- Lexicographic order on strings, as used by Python `sorted`. -/
def strLe (a b : String) : Bool :=
  charListLe a.data b.data

def insortS (x : String) : List String → List String
  | [] => [x]
  | y :: ys => if strLe x y then x :: y :: ys else y :: insortS x ys

/-- Insertion sort modelling Python `sorted` on strings. -/
def sortS : List String → List String
  | [] => []
  | x :: xs => insortS x (sortS xs)

/-- `LOGLEVELS = sorted(LOGLEVELS.keys())` after the dedup loop
(prod.py line 12), computed once at startup and never mutated. -/
def LOGLEVELS : List String :=
  sortS (dedupedLevels.map Prod.fst)

/-! ### parseComment (prod.py lines 15-40) -/

/-- `next(L for L in LOGLEVELS if L.startswith(p))`, as an `Option`
(`none` models the caught `StopIteration`). -/
def resolveLevel (p : String) : Option String :=
  List.find? (fun L => startsWithS L p) LOGLEVELS

/-- Model of `parseComment`: split the comment on the first `:`, strip
both parts; an empty stripped prefix, or a prefix that resolves to no
canonical level, falls back to `("INFO", comment)`. -/
def parseComment (comment : String) : String × String :=
  let level := stripS (beforeCh ':' comment)
  let logline := stripS (afterCh ':' comment)
  if level = "" then ("INFO", comment)
  else
    match resolveLevel (strUpper level) with
    | some l => (l, logline)
    | none => ("INFO", comment)

/-! ### The structural model of a parsed source (see header) -/

inductive PyExpr where
  | name (id : String)
  | attrAccess (value : PyExpr) (attr : String)
  | call (func : PyExpr) (args : List PyExpr)
  | constant

/-- One node of the `ast.walk` sequence, restricted to the node kinds the
program inspects.  `names` carries `(alias.name, alias.asname)` pairs;
`endLineno` is `ast`'s optional `end_lineno`. -/
inductive PyStmt where
  | importFrom (module : String) (names : List (String × Option String))
  | importStmt (names : List (String × Option String))
  | functionDef (isAsync : Bool) (name : String) (decorators : List PyExpr)
      (lineno : Nat) (endLineno : Option Nat)
  | other

/-- `alias.asname if alias.asname else alias.name`. -/
def aliasBound (na : String × Option String) : String :=
  match na.2 with
  | some a => a
  | none => na.1

/-! ### extractLoggerInfo (prod.py lines 89-149) -/

/-- The names bound by `commentlogger` imports (prod.py lines 102-116):
`from commentlogger import x [as y]` binds every alias; `import
commentlogger [as y]` binds the alias of the matching name. -/
def clNamesOf (m : List PyStmt) : List String :=
  m.foldl (fun acc s =>
    match s with
    | PyStmt.importFrom mod names =>
        if mod == "commentlogger" then acc ++ names.map aliasBound else acc
    | PyStmt.importStmt names =>
        acc ++ names.filterMap (fun na =>
          if na.1 == "commentlogger" then some (aliasBound na) else none)
    | _ => acc) []

/-- The `decoratorName` computed at prod.py lines 126-134: a bare callee
name always, a dotted `mod.attr` only when `mod` is a bound name. -/
def decoratorCallName (cl : List String) : PyExpr → Option String
  | PyExpr.name id => some id
  | PyExpr.attrAccess (PyExpr.name mod) attr =>
      if cl.contains mod then some (mod ++ "." ++ attr) else none
  | _ => none

/-- The record produced for one decorator of one function definition
(prod.py lines 124-144): `some (functionName, loggerArg)` exactly when
the decorator is a call to a bound name whose first positional argument
is a bare identifier. -/
def decoratorEvent (cl : List String) (fn : String) : PyExpr → Option (String × String)
  | PyExpr.call f args =>
      match decoratorCallName cl f with
      | some dn =>
          if cl.contains dn || cl.contains (beforeCh '.' dn) then
            match args with
            | PyExpr.name argId :: _ => some (fn, argId)
            | _ => none
          else none
      | none => none
  | _ => none

def innerDecStep (cl : List String) (fn : String)
    (acc : Option String × List String) (d : PyExpr) :
    Option String × List String :=
  match decoratorEvent cl fn d with
  | some e => (some e.2, acc.2 ++ [e.1])
  | none => acc

def extractStep (cl : List String) (acc : Option String × List String)
    (s : PyStmt) : Option String × List String :=
  match s with
  | PyStmt.functionDef _ n decs _ _ => decs.foldl (innerDecStep cl n) acc
  | _ => acc

/-- Model of `extractLoggerInfo`: over the walk sequence, each matching
decorator overwrites `loggerName` and adds the function's name to the
decorated set; a parse failure (`none`) degrades to `(None, set())`. -/
def extractLoggerInfo : Option (List PyStmt) → Option String × List String
  | none => (none, [])
  | some m => m.foldl (extractStep (clNamesOf m)) (none, [])

/-! ### shouldSkipDecoratorLine (prod.py lines 43-86) -/

def isWordDotC (c : Char) : Bool :=
  c.isAlphanum || c == '_' || c == '.'

/-- The regex `@([\w.]+)\s*\(` matched at the start of the stripped line
(prod.py line 60): returns the captured dotted name. -/
def decoratorLineName (line : String) : Option String :=
  let stripped := stripS line
  if startsWithS stripped "@" then
    let rest := stripped.data.drop 1
    let dn := rest.takeWhile isWordDotC
    let after := (rest.dropWhile isWordDotC).dropWhile wsChar
    if !dn.isEmpty && (match after with | c :: _ => c == '(' | [] => false)
    then some (String.mk dn) else none
  else none

/-- Model of `shouldSkipDecoratorLine`: the line is a decorator call
whose base name (before any dot) or full dotted name is bound to
`commentlogger` by an import of the parsed source.  A parse failure is
swallowed (`except: pass`) and yields `false`. -/
def shouldSkipDecoratorLine (line : String) (tree : Option (List PyStmt)) : Bool :=
  match decoratorLineName line with
  | none => false
  | some dn =>
      match tree with
      | none => false
      | some m =>
          let base := beforeCh '.' dn
          m.any (fun s =>
            match s with
            | PyStmt.importFrom mod names =>
                mod == "commentlogger" &&
                  names.any (fun na =>
                    base == aliasBound na || dn == aliasBound na)
            | PyStmt.importStmt names =>
                names.any (fun na =>
                  na.1 == "commentlogger" && base == aliasBound na)
            | _ => false)

/-! ### injectLogging (prod.py lines 152-241)

File I/O and console printing are outside the model; `injectLogging`
below is the pure text transformation from the read `sourceCode` (and the
shared parse outcome) to the returned string. -/

/-- Membership of line number `j` in
`range(lineno, end_lineno + 1 if end_lineno else lineno + 1)`
(prod.py line 185; a falsy `end_lineno` collapses the range to the
single `lineno`). -/
def lineInDef (ln : Nat) (el : Option Nat) (j : Nat) : Bool :=
  match el with
  | some e => if e == 0 then j == ln else Nat.ble ln j && Nat.ble j e
  | none => j == ln

/-- The `lineToFunction` map (prod.py lines 180-188): later walk nodes
overwrite earlier ones on shared line numbers. -/
def lineToFunctionOf (m : List PyStmt) : Nat → Option String :=
  m.foldl (fun acc s =>
    match s with
    | PyStmt.functionDef _ n _ ln el =>
        fun j => if lineInDef ln el j then some n else acc j
    | _ => acc) (fun _ => none)

/-- The effective logger name (prod.py lines 166-171): the detected name,
or the literal fallback `"logger"`. -/
def effectiveLoggerName (tree : Option (List PyStmt)) : String :=
  match (extractLoggerInfo tree).1 with
  | some n => n
  | none => "logger"

/-- The per-run context assembled before the line loop. -/
structure Ctx where
  importsLogging : Bool
  tree : Option (List PyStmt)
  loggerName : String
  decoratedFunctions : List String
  lineToFun : Nat → Option String

def mkCtx (src : String) (tree : Option (List PyStmt)) : Ctx :=
  ⟨strContains src "import logging", tree, effectiveLoggerName tree,
   (extractLoggerInfo tree).2,
   match tree with
   | some m => lineToFunctionOf m
   | none => fun _ => none⟩

/-- `commentMatch.group(1).strip()`: the text after the first `#`,
stripped (the regex is `#\s*(.*)`). -/
def commentTextOf (line : String) : String :=
  stripS (afterCh '#' line)

/-- `line.split('#')[0].strip()`. -/
def preCommentCodeOf (line : String) : String :=
  stripS (beforeCh '#' line)

/-- The indentation captured by `^(\s*)`. -/
def indentOf (line : String) : String :=
  String.mk (line.data.takeWhile wsChar)

/-- `currFunc = lineToFunction.get(i + 1)` — the 1-based line number. -/
def currFuncOf (ctx : Ctx) (i : Nat) : Option String :=
  ctx.lineToFun (i + 1)

/-- The injection condition at prod.py line 219, guarded by the comment
match at line 211 (which succeeds exactly when the line contains `#`). -/
def injectHere (ctx : Ctx) (i : Nat) (line : String) : Bool :=
  line.data.contains '#' &&
  !(preCommentCodeOf line).data.isEmpty &&
  (match currFuncOf ctx i with
   | some f => ctx.decoratedFunctions.contains f
   | none => false) &&
  !(preCommentCodeOf line).data.contains '@'

/-- The synthesized statement
`f'{indent}{loggerName}.{logLevel.lower()}("{logMessage}")'`. -/
def logStatementFor (ctx : Ctx) (line : String) : String :=
  let lv := (parseComment (commentTextOf line)).1
  let msg := (parseComment (commentTextOf line)).2
  indentOf line ++ ctx.loggerName ++ "." ++ strLower lv ++ "(" ++ "\"" ++
    msg ++ "\"" ++ ")"

/-- The lines appended for one source line after the import-bootstrap
check: nothing for a skipped decorator line; the log statement (if the
condition holds) followed by the unchanged original line otherwise. -/
def emittedFor (ctx : Ctx) (i : Nat) (line : String) : List String :=
  if shouldSkipDecoratorLine line ctx.tree then []
  else if injectHere ctx i line then [logStatementFor ctx line, line]
  else [line]

/-- The import-bootstrap qualification of a line (prod.py lines 195-199):
stripped, it is not a comment, not a docstring opener, and not empty. -/
def bootstrapQualifies (line : String) : Bool :=
  let s := stripS line
  !startsWithS s "#" && !startsWithS s "\"\"\"" &&
    !startsWithS s (String.mk [Char.ofNat 39, Char.ofNat 39, Char.ofNat 39]) &&
    !s.data.isEmpty

/-- One iteration of the `while i < len(lines)` loop: possibly insert the
bootstrap (`import logging` plus a blank line, only when nothing was
inserted yet, the facility substring is absent, the line qualifies and
`i > 0`), then emit this line's contribution. -/
def stepLine (ctx : Ctx) (st : List String × Bool) (p : Nat × String) :
    List String × Bool :=
  let boot := !st.2 && !ctx.importsLogging && bootstrapQualifies p.2 &&
    Nat.ble 1 p.1
  let acc := if boot then st.1 ++ ["import logging", ""] else st.1
  (acc ++ emittedFor ctx p.1 p.2, st.2 || boot)

def idxFrom : Nat → List String → List (Nat × String)
  | _, [] => []
  | n, l :: ls => (n, l) :: idxFrom (n + 1) ls

/-- The `newLines` list produced by the rewrite loop. -/
def injectLoggingCore (src : String) (tree : Option (List PyStmt)) : List String :=
  ((idxFrom 0 (splitlines src)).foldl (stepLine (mkCtx src tree)) ([], false)).1

/-- The returned text: `'\n'.join(newLines)`. -/
def injectLogging (src : String) (tree : Option (List PyStmt)) : String :=
  joinNL (injectLoggingCore src tree)

/-! ### Claim-side reformulations (each follows the spec's words, to be
compared with the definitions above) -/

/-- The per-(function, decorator) instrumentation records, in walk order,
as a flat list. -/
def stmtEvents (cl : List String) (s : PyStmt) : List (String × String) :=
  match s with
  | PyStmt.functionDef _ n decs _ _ => decs.filterMap (decoratorEvent cl n)
  | _ => []

def instrumentedEvents (m : List PyStmt) : List (String × String) :=
  m.foldr (fun s acc => stmtEvents (clNamesOf m) s ++ acc) []

/-- "The last such definition encountered during the walk determines the
file-wide logger name": the logger argument of the last record, or a
default. -/
def lastLogger (evs : List (String × String)) (d : Option String) : Option String :=
  match evs.getLast? with
  | some e => some e.2
  | none => d

/-- The condition under which the bootstrap fires at a given
(index, line) pair once `addedImports` is still false. -/
def bootstrapTrigger (ctx : Ctx) (p : Nat × String) : Bool :=
  !ctx.importsLogging && bootstrapQualifies p.2 && Nat.ble 1 p.1

/-- The concatenation of the per-line contributions, with no bootstrap. -/
def flatEmit (ctx : Ctx) : List (Nat × String) → List String
  | [] => []
  | p :: ps => emittedFor ctx p.1 p.2 ++ flatEmit ctx ps

/-! ### Small bridging lemmas -/

lemma data_isEmpty_false_iff (s : String) : s.data.isEmpty = false ↔ s ≠ "" := by
  constructor
  · intro h heq
    subst heq
    simp at h
  · intro h
    cases he : s.data.isEmpty
    · rfl
    · exfalso
      apply h
      cases s with
      | mk d =>
        have hd : d = [] := by simpa [List.isEmpty_iff] using he
        simp [hd]

lemma find?_eq_head?_filter (f : String → Bool) :
    ∀ l : List String, l.find? f = (l.filter f).head? := by
  intro l
  induction l with
  | nil => rfl
  | cons a as ih =>
    cases h : f a
    · rw [List.find?_cons_of_neg _ (by simp [h]), List.filter_cons_of_neg (by simp [h])]
      exact ih
    · rw [List.find?_cons_of_pos _ h, List.filter_cons_of_pos h]
      rfl

/-! ### Claims C8, C9, C5 -/

/-- C8 counterexample: `WARN` and `WARNING` share rank 30 and `WARN` is a
strict prefix of `WARNING`, yet the computed set keeps the longest name
`WARNING` and drops the shortest `WARN` — the claim says the pair is
collapsed to the shortest name. -/
theorem level_dedup_keeps_longest_cex :
    ("WARN", 30) ∈ nameToLevel ∧ ("WARNING", 30) ∈ nameToLevel ∧
    startsWithS "WARNING" "WARN" = true ∧ "WARN" ≠ "WARNING" ∧
    "WARN" ∉ LOGLEVELS ∧ "WARNING" ∈ LOGLEVELS := by
  decide

/-- C8 (amended): the canonical severity-level set, computed once at
startup (a closed Lean definition, hence never mutated), contains no two
entries where one name is a strict prefix of another with equal rank, and
each such duplicate-by-rank prefix pair of the host table is collapsed to
the longest name (`WARNING` survives, `WARN` is dropped). -/
theorem level_set_prefix_free :
    LOGLEVELS = ["CRITICAL", "DEBUG", "ERROR", "FATAL", "INFO", "NOTSET", "WARNING"] ∧
    (dedupedLevels.all (fun p => dedupedLevels.all (fun q =>
        !(p.1 != q.1 && startsWithS q.1 p.1 && p.2 == q.2)))) = true ∧
    "WARNING" ∈ LOGLEVELS ∧ "WARN" ∉ LOGLEVELS := by
  decide

/-- C9: resolving a canonical level name's own full text (uppercased, and
also starting from its lowercase form, i.e. case-insensitively) yields
that same level; in general the resolver returns the first canonical
name, in the fixed sorted order of the deduplicated set, that starts with
the prefix text. -/
theorem level_resolution_idempotent :
    (∀ N ∈ LOGLEVELS, resolveLevel (strUpper N) = some N ∧
       resolveLevel (strUpper (strLower N)) = some N) ∧
    (∀ p : String, resolveLevel p =
       (LOGLEVELS.filter (fun L => startsWithS L p)).head?) := by
  constructor
  · decide
  · intro p
    exact find?_eq_head?_filter _ _

/-- Witness for C9 at the canonical name `WARNING`. -/
theorem level_resolution_idempotent_witness :
    "WARNING" ∈ LOGLEVELS ∧ resolveLevel (strUpper "WARNING") = some "WARNING" := by
  exact ⟨by decide, (level_resolution_idempotent.1 "WARNING" (by decide)).1⟩

/-- C5: the classifier splits the comment on the first `:`; an empty
(stripped) candidate prefix gives INFO with the full original comment, a
prefix that fails to resolve likewise gives INFO with the full original
comment, and a successful resolution gives the resolved level with the
trimmed post-colon remainder as the message. -/
theorem classifier_fallback_characterization (c : String) :
    (stripS (beforeCh ':' c) = "" → parseComment c = ("INFO", c)) ∧
    (∀ L, stripS (beforeCh ':' c) ≠ "" →
       resolveLevel (strUpper (stripS (beforeCh ':' c))) = some L →
       parseComment c = (L, stripS (afterCh ':' c))) ∧
    (stripS (beforeCh ':' c) ≠ "" →
       resolveLevel (strUpper (stripS (beforeCh ':' c))) = none →
       parseComment c = ("INFO", c)) := by
  refine ⟨?_, ?_, ?_⟩
  · intro h
    simp [parseComment, h]
  · intro L h hr
    simp [parseComment, h, hr]
  · intro h hr
    simp [parseComment, h, hr]

/-- Witness for C5 at the comment `warn: disk low`. -/
theorem classifier_fallback_witness :
    stripS (beforeCh ':' "warn: disk low") = "warn" ∧
    resolveLevel (strUpper (stripS (beforeCh ':' "warn: disk low"))) = some "WARNING" ∧
    parseComment "warn: disk low" = ("WARNING", "disk low") := by
  refine ⟨by decide, by decide, ?_⟩
  have h := (classifier_fallback_characterization "warn: disk low").2.1 "WARNING"
    (by decide) (by decide)
  rw [h]
  decide

/-! ### Fold lemmas for the structural analyzer (C6, C10) -/

lemma lastLogger_cons (e : String × String) (evs : List (String × String))
    (d : Option String) : lastLogger (e :: evs) d = lastLogger evs (some e.2) := by
  cases evs with
  | nil => rfl
  | cons x xs =>
    unfold lastLogger
    rw [List.getLast?_cons_cons]
    cases h : (x :: xs).getLast? with
    | some y => rfl
    | none =>
      exact absurd (List.getLast?_eq_none_iff.mp h) (by simp)

lemma lastLogger_append (a b : List (String × String)) (d : Option String) :
    lastLogger (a ++ b) d = lastLogger b (lastLogger a d) := by
  induction a generalizing d with
  | nil => rfl
  | cons e a ih =>
    rw [List.cons_append, lastLogger_cons, lastLogger_cons, ih]

lemma lastLogger_none_eq (evs : List (String × String)) :
    lastLogger evs none = (evs.getLast?).map Prod.snd := by
  cases h : evs.getLast? <;> simp [lastLogger, h]

lemma innerFold (cl : List String) (fn : String) :
    ∀ (decs : List PyExpr) (acc : Option String × List String),
      decs.foldl (innerDecStep cl fn) acc =
        (lastLogger (decs.filterMap (decoratorEvent cl fn)) acc.1,
         acc.2 ++ (decs.filterMap (decoratorEvent cl fn)).map Prod.fst) := by
  intro decs
  induction decs with
  | nil => intro acc; simp [lastLogger]
  | cons d ds ih =>
    intro acc
    rw [List.foldl_cons]
    cases h : decoratorEvent cl fn d with
    | none =>
      rw [List.filterMap_cons_none h]
      have hstep : innerDecStep cl fn acc d = acc := by
        simp [innerDecStep, h]
      rw [hstep]
      exact ih acc
    | some e =>
      rw [List.filterMap_cons_some h]
      have hstep : innerDecStep cl fn acc d = (some e.2, acc.2 ++ [e.1]) := by
        simp [innerDecStep, h]
      rw [hstep, ih, lastLogger_cons]
      simp

/-- `instrumentedEvents` with an arbitrary binding set, for induction. -/
lemma outerFold (cl : List String) :
    ∀ (l : List PyStmt) (acc : Option String × List String),
      l.foldl (extractStep cl) acc =
        (lastLogger (l.foldr (fun s a => stmtEvents cl s ++ a) []) acc.1,
         acc.2 ++ (l.foldr (fun s a => stmtEvents cl s ++ a) []).map Prod.fst) := by
  intro l
  induction l with
  | nil => intro acc; simp [lastLogger]
  | cons s l ih =>
    intro acc
    rw [List.foldl_cons, List.foldr_cons]
    have hstep : extractStep cl acc s =
        (lastLogger (stmtEvents cl s) acc.1, acc.2 ++ (stmtEvents cl s).map Prod.fst) := by
      cases s with
      | functionDef a n decs ln el => exact innerFold cl n decs acc
      | importFrom mod names => simp [extractStep, stmtEvents, lastLogger]
      | importStmt names => simp [extractStep, stmtEvents, lastLogger]
      | other => simp [extractStep, stmtEvents, lastLogger]
    rw [hstep, ih, lastLogger_append]
    simp

lemma extractLoggerInfo_eq (m : List PyStmt) :
    extractLoggerInfo (some m) =
      (lastLogger (instrumentedEvents m) none, (instrumentedEvents m).map Prod.fst) := by
  have h := outerFold (clNamesOf m) m (none, [])
  simpa [extractLoggerInfo, instrumentedEvents] using h

/-- C6: the logger name detected by the analyzer is the argument recorded
by the last instrumented definition encountered during the walk (a single
file-wide value, not per-function); when no record exists (or the parse
failed) the rewrite falls back to the literal identifier `logger`, and
the rewrite context uses exactly this effective name for all injected
statements. -/
theorem last_instrumented_def_logger_name (m : List PyStmt) :
    (extractLoggerInfo (some m)).1 = ((instrumentedEvents m).getLast?).map Prod.snd ∧
    effectiveLoggerName (some m) =
      (((instrumentedEvents m).getLast?).map Prod.snd).getD "logger" ∧
    effectiveLoggerName none = "logger" ∧
    (∀ (src : String) (tree : Option (List PyStmt)),
       (mkCtx src tree).loggerName = effectiveLoggerName tree) := by
  have h1 : (extractLoggerInfo (some m)).1 =
      ((instrumentedEvents m).getLast?).map Prod.snd := by
    rw [extractLoggerInfo_eq]
    exact lastLogger_none_eq _
  refine ⟨h1, ?_, rfl, fun src tree => rfl⟩
  unfold effectiveLoggerName
  rw [h1]
  cases (instrumentedEvents m).getLast? <;> rfl

/-- C10: a marker-decorator call with no positional arguments, or with a
first positional argument that is not a bare identifier, produces no
instrumentation record; the instrumented set is exactly the function
names of the record list (so such a function is never in it and none of
its lines can pass the injection test); and any line the decorator filter
recognizes contributes nothing to the output (it is dropped), regardless
of the call's arguments. -/
theorem unparameterized_decorator_not_instrumented :
    (∀ (cl : List String) (fn : String) (f : PyExpr) (args : List PyExpr),
       (args = [] ∨ ∃ e rest, args = e :: rest ∧ ∀ id, e ≠ PyExpr.name id) →
       decoratorEvent cl fn (PyExpr.call f args) = none) ∧
    (∀ m : List PyStmt,
       (extractLoggerInfo (some m)).2 = (instrumentedEvents m).map Prod.fst) ∧
    (∀ (ctx : Ctx) (i : Nat) (line : String),
       shouldSkipDecoratorLine line ctx.tree = true → emittedFor ctx i line = []) := by
  refine ⟨?_, ?_, ?_⟩
  · intro cl fn f args h
    show (match decoratorCallName cl f with
      | some dn =>
          if cl.contains dn || cl.contains (beforeCh '.' dn) then
            match args with
            | PyExpr.name argId :: _ => some (fn, argId)
            | _ => none
          else none
      | none => none) = none
    cases hdn : decoratorCallName cl f with
    | none => rfl
    | some dn =>
      simp only []
      split
      · rcases h with rfl | ⟨e, rest, rfl, hne⟩
        · rfl
        · cases e with
          | name id => exact absurd rfl (hne id)
          | attrAccess v a => rfl
          | call f2 a2 => rfl
          | constant => rfl
      · rfl
  · intro m
    rw [extractLoggerInfo_eq]
  · intro ctx i line h
    simp [emittedFor, h]

def mC10 : List PyStmt :=
  [PyStmt.importFrom "commentlogger" [("marker", none)],
   PyStmt.functionDef false "g" [PyExpr.call (PyExpr.name "marker") []] 3 (some 4),
   PyStmt.other]

def srcC10 : String := "from commentlogger import marker\n@marker()\ndef g():\n    pass\n"

/-- Witness for C10: `@marker()` (argument-less call of a bound marker
name) instruments nothing, yet the filter recognizes the line and the
rewrite drops it. -/
theorem unparameterized_decorator_witness :
    decoratorEvent ["marker"] "g" (PyExpr.call (PyExpr.name "marker") []) = none ∧
    (extractLoggerInfo (some mC10)).2 = [] ∧
    shouldSkipDecoratorLine "@marker()" (some mC10) = true ∧
    emittedFor (mkCtx srcC10 (some mC10)) 1 "@marker()" = [] := by
  refine ⟨?_, ?_, by decide, ?_⟩
  · exact unparameterized_decorator_not_instrumented.1 ["marker"] "g"
      (PyExpr.name "marker") [] (Or.inl rfl)
  · rw [unparameterized_decorator_not_instrumented.2.1 mC10]
    decide
  · exact unparameterized_decorator_not_instrumented.2.2 _ 1 _ (by decide)

/-! ### Lemmas about the rewrite loop (C1, C2, C3, C4, C7) -/

lemma skip_none (line : String) : shouldSkipDecoratorLine line none = false := by
  rcases hdl : decoratorLineName line with _ | dn <;>
    simp [shouldSkipDecoratorLine, hdl]

lemma idxFrom_map_snd : ∀ (n : Nat) (ls : List String),
    (idxFrom n ls).map Prod.snd = ls := by
  intro n ls
  induction ls generalizing n with
  | nil => rfl
  | cons l ls ih => simp [idxFrom, ih]

lemma injectHere_no_instr (ctx : Ctx) (h : ctx.decoratedFunctions = [])
    (i : Nat) (line : String) : injectHere ctx i line = false := by
  unfold injectHere
  cases hc : currFuncOf ctx i <;> simp [h, hc]

lemma emittedFor_no_instr (ctx : Ctx) (h : ctx.decoratedFunctions = [])
    (i : Nat) (line : String) :
    emittedFor ctx i line =
      if shouldSkipDecoratorLine line ctx.tree then [] else [line] := by
  simp [emittedFor, injectHere_no_instr ctx h]

lemma flatEmit_no_instr (ctx : Ctx) (h : ctx.decoratedFunctions = []) :
    ∀ ps : List (Nat × String),
      flatEmit ctx ps = (ps.map Prod.snd).filter
        (fun l => !shouldSkipDecoratorLine l ctx.tree) := by
  intro ps
  induction ps with
  | nil => rfl
  | cons p ps ih =>
    rw [List.map_cons, List.filter_cons]
    cases hs : shouldSkipDecoratorLine p.2 ctx.tree
    · simp [flatEmit, emittedFor_no_instr ctx h, hs, ih]
    · simp [flatEmit, emittedFor_no_instr ctx h, hs, ih]

lemma foldA (ctx : Ctx) :
    ∀ (ps : List (Nat × String)) (acc : List String) (flag : Bool),
      (flag || ctx.importsLogging) = true →
      ps.foldl (stepLine ctx) (acc, flag) = (acc ++ flatEmit ctx ps, flag) := by
  intro ps
  induction ps with
  | nil =>
    intro acc flag h
    simp [flatEmit]
  | cons p ps ih =>
    intro acc flag h
    have hb : (!flag && !ctx.importsLogging && bootstrapQualifies p.2 &&
        Nat.ble 1 p.1) = false := by
      cases flag with
      | true => simp
      | false => simp at h; simp [h]
    have hstep : stepLine ctx (acc, flag) p =
        (acc ++ emittedFor ctx p.1 p.2, flag) := by
      simp [stepLine, hb]
    rw [List.foldl_cons, hstep, ih _ _ h, flatEmit, List.append_assoc]

lemma foldB (ctx : Ctx) (himp : ctx.importsLogging = false) :
    ∀ (ps : List (Nat × String)) (acc : List String),
      ps.foldl (stepLine ctx) (acc, false) =
        (match ps.dropWhile (fun p => !bootstrapTrigger ctx p) with
         | [] => (acc ++ flatEmit ctx ps, false)
         | q :: rest =>
             (acc ++ flatEmit ctx (ps.takeWhile (fun p => !bootstrapTrigger ctx p)) ++
              ["import logging", ""] ++ emittedFor ctx q.1 q.2 ++ flatEmit ctx rest,
              true)) := by
  intro ps
  induction ps with
  | nil => intro acc; simp [flatEmit]
  | cons p ps ih =>
    intro acc
    cases ht : bootstrapTrigger ctx p with
    | true =>
      have hq : (bootstrapQualifies p.2 && Nat.ble 1 p.1) = true := by
        have h2 := ht
        unfold bootstrapTrigger at h2
        rw [himp] at h2
        simpa using h2
      have hstep : stepLine ctx (acc, false) p =
          (acc ++ ["import logging", ""] ++ emittedFor ctx p.1 p.2, true) := by
        simp [stepLine, himp, hq]
      rw [List.foldl_cons, hstep, foldA ctx ps _ true (by simp)]
      simp [List.dropWhile_cons, List.takeWhile_cons, ht, flatEmit, List.append_assoc]
    | false =>
      have hq : (bootstrapQualifies p.2 && Nat.ble 1 p.1) = false := by
        have h2 := ht
        unfold bootstrapTrigger at h2
        rw [himp] at h2
        simpa using h2
      have hstep : stepLine ctx (acc, false) p =
          (acc ++ emittedFor ctx p.1 p.2, false) := by
        simp [stepLine, himp, hq]
      rw [List.foldl_cons, hstep, ih]
      simp only [List.dropWhile_cons, List.takeWhile_cons, ht, Bool.not_false, if_true]
      cases hd : List.dropWhile (fun p => !bootstrapTrigger ctx p) ps with
      | nil => simp [hd, flatEmit, List.append_assoc]
      | cons q rest => simp [hd, flatEmit, List.append_assoc]

lemma fold_sub (ctx : Ctx) :
    ∀ (ps : List (Nat × String)) (acc : List String) (flag : Bool),
      ∃ t, (ps.foldl (stepLine ctx) (acc, flag)).1 = acc ++ t ∧
        List.Sublist
          ((ps.map Prod.snd).filter (fun l => !shouldSkipDecoratorLine l ctx.tree))
          t := by
  intro ps
  induction ps with
  | nil =>
    intro acc flag
    exact ⟨[], by simp, by simp⟩
  | cons p ps ih =>
    intro acc flag
    rw [List.foldl_cons]
    cases hb : (!flag && !ctx.importsLogging && bootstrapQualifies p.2 &&
        Nat.ble 1 p.1)
    case false =>
      have hstep : stepLine ctx (acc, flag) p =
          (acc ++ emittedFor ctx p.1 p.2, flag) := by
        simp [stepLine, hb]
      rw [hstep]
      obtain ⟨t, ht1, ht2⟩ := ih (acc ++ emittedFor ctx p.1 p.2) flag
      refine ⟨emittedFor ctx p.1 p.2 ++ t, by rw [ht1, List.append_assoc], ?_⟩
      rw [List.map_cons, List.filter_cons]
      cases hs : shouldSkipDecoratorLine p.2 ctx.tree
      · have hkeep : List.Sublist [p.2] (emittedFor ctx p.1 p.2) := by
          unfold emittedFor
          rw [hs]
          cases hj : injectHere ctx p.1 p.2
          · simp
          · simp
        simp only [hs, Bool.not_false, if_true]
        exact List.Sublist.append hkeep ht2
      · have hdrop : emittedFor ctx p.1 p.2 = [] := by
          simp [emittedFor, hs]
        simp only [hs, Bool.not_true, if_false]
        rw [hdrop, List.nil_append]
        exact ht2
    case true =>
      have hstep : stepLine ctx (acc, flag) p =
          (acc ++ ["import logging", ""] ++ emittedFor ctx p.1 p.2, flag || true) := by
        simp [stepLine, hb]
      rw [hstep]
      obtain ⟨t, ht1, ht2⟩ :=
        ih (acc ++ ["import logging", ""] ++ emittedFor ctx p.1 p.2) (flag || true)
      refine ⟨["import logging", ""] ++ (emittedFor ctx p.1 p.2 ++ t), ?_, ?_⟩
      · rw [ht1]
        simp [List.append_assoc]
      · have hsub2 : List.Sublist
            (((p.2 :: ps.map Prod.snd)).filter
              (fun l => !shouldSkipDecoratorLine l ctx.tree))
            (emittedFor ctx p.1 p.2 ++ t) := by
          rw [List.filter_cons]
          cases hs : shouldSkipDecoratorLine p.2 ctx.tree
          · have hkeep : List.Sublist [p.2] (emittedFor ctx p.1 p.2) := by
              unfold emittedFor
              rw [hs]
              cases hj : injectHere ctx p.1 p.2
              · simp
              · simp
            simp only [hs, Bool.not_false, if_true]
            exact List.Sublist.append hkeep ht2
          · have hdrop : emittedFor ctx p.1 p.2 = [] := by
              simp [emittedFor, hs]
            simp only [hs, Bool.not_true, if_false]
            rw [hdrop, List.nil_append]
            exact ht2
        rw [List.map_cons]
        exact hsub2.trans (List.sublist_append_right _ _)

lemma run_no_instr (src : String) (tree : Option (List PyStmt))
    (h : (extractLoggerInfo tree).2 = []) :
    injectLoggingCore src tree =
      (splitlines src).filter (fun l => !shouldSkipDecoratorLine l tree) ∨
    ∃ n, injectLoggingCore src tree =
      ((splitlines src).take n).filter (fun l => !shouldSkipDecoratorLine l tree) ++
      ["import logging", ""] ++
      ((splitlines src).drop n).filter (fun l => !shouldSkipDecoratorLine l tree) := by
  have hdec : (mkCtx src tree).decoratedFunctions = [] := h
  have hfe : ∀ ps : List (Nat × String),
      flatEmit (mkCtx src tree) ps = (ps.map Prod.snd).filter
        (fun l => !shouldSkipDecoratorLine l tree) :=
    flatEmit_no_instr (mkCtx src tree) hdec
  have hmap := idxFrom_map_snd 0 (splitlines src)
  cases himp : (mkCtx src tree).importsLogging
  · -- no `import logging` substring: lemma foldB applies
    have hfold := foldB (mkCtx src tree) himp (idxFrom 0 (splitlines src)) []
    cases hd : (idxFrom 0 (splitlines src)).dropWhile
        (fun p => !bootstrapTrigger (mkCtx src tree) p) with
    | nil =>
      left
      rw [hd] at hfold
      simp only [] at hfold
      unfold injectLoggingCore
      rw [hfold]
      simp [hfe, hmap]
    | cons q rest =>
      right
      rw [hd] at hfold
      simp only [] at hfold
      have hsplit := List.takeWhile_append_dropWhile
        (fun p => !bootstrapTrigger (mkCtx src tree) p) (idxFrom 0 (splitlines src))
      rw [hd] at hsplit
      -- the input lines split as A ++ B at the bootstrap point
      have hAB : splitlines src =
          ((idxFrom 0 (splitlines src)).takeWhile
            (fun p => !bootstrapTrigger (mkCtx src tree) p)).map Prod.snd ++
          (q :: rest).map Prod.snd := by
        rw [← List.map_append, hsplit, hmap]
      have key : ∀ (A B : List String), splitlines src = A ++ B →
          (splitlines src).take A.length = A ∧ (splitlines src).drop A.length = B := by
        intro A B hA
        constructor
        · rw [hA]
          exact List.take_left _ _
        · rw [hA]
          exact List.drop_left _ _
      refine ⟨(((idxFrom 0 (splitlines src)).takeWhile
        (fun p => !bootstrapTrigger (mkCtx src tree) p)).map Prod.snd).length, ?_⟩
      have htake := (key _ _ hAB).1
      have hdrop := (key _ _ hAB).2
      unfold injectLoggingCore
      rw [hfold]
      rw [htake, hdrop]
      have hqrest : emittedFor (mkCtx src tree) q.1 q.2 ++ flatEmit (mkCtx src tree) rest =
          ((q :: rest).map Prod.snd).filter
            (fun l => !shouldSkipDecoratorLine l tree) := by
        have := hfe (q :: rest)
        rw [← this]
        rfl
      rw [← hqrest, hfe]
      simp [List.append_assoc]
  · -- the facility substring is present: no bootstrap, lemma foldA applies
    left
    have hfold := foldA (mkCtx src tree) (idxFrom 0 (splitlines src)) [] false
      (by rw [himp]; rfl)
    unfold injectLoggingCore
    rw [hfold]
    simp [hfe, hmap]

/-! ### Claim C1 -/

def srcC1 : String :=
  "from commentlogger import marker\n@marker(log)\ndef f():\n    pass\n"

/-- The walk sequence of `srcC1`: the import, the decorated definition
(`def` on line 3, ending on line 4), and its `pass` body statement. -/
def treeC1 : List PyStmt :=
  [PyStmt.importFrom "commentlogger" [("marker", none)],
   PyStmt.functionDef false "f"
     [PyExpr.call (PyExpr.name "marker") [PyExpr.name "log"]] 3 (some 4),
   PyStmt.other]

/-- C1 counterexample: the marker-decorator line `@marker(log)` is an
original line of the input but does not appear in the transform's output
at all — it is dropped, not emitted verbatim. -/
theorem decorator_line_dropped_cex :
    "@marker(log)" ∈ splitlines srcC1 ∧
    injectLoggingCore srcC1 (some treeC1) =
      ["from commentlogger import marker", "import logging", "",
       "def f():", "    pass"] ∧
    "@marker(log)" ∉ injectLoggingCore srcC1 (some treeC1) := by
  decide

/-- C1 (amended): every original line that the decorator filter does not
recognize appears in the output, in original order, with unchanged
content (the kept lines form a sublist of the output); a recognized
marker-decorator line is dropped from the output and never generates an
injection (it contributes no lines at all). -/
theorem kept_lines_preserved_in_order (src : String) (tree : Option (List PyStmt)) :
    List.Sublist
      ((splitlines src).filter (fun l => !shouldSkipDecoratorLine l tree))
      (injectLoggingCore src tree) ∧
    (∀ (i : Nat) (line : String), shouldSkipDecoratorLine line tree = true →
       emittedFor (mkCtx src tree) i line = []) := by
  constructor
  · obtain ⟨t, h1, h2⟩ := fold_sub (mkCtx src tree) (idxFrom 0 (splitlines src)) [] false
    have h2' : List.Sublist
        ((splitlines src).filter (fun l => !shouldSkipDecoratorLine l tree)) t := by
      rw [idxFrom_map_snd] at h2
      exact h2
    unfold injectLoggingCore
    rw [h1, List.nil_append]
    exact h2'
  · intro i line h
    have h' : shouldSkipDecoratorLine line (mkCtx src tree).tree = true := h
    simp [emittedFor, h']

/-- Witness for C1's amended theorem at `srcC1`, discharging the skip
hypothesis on the line `@marker(log)`. -/
theorem kept_lines_preserved_witness :
    List.Sublist
      ((splitlines srcC1).filter (fun l => !shouldSkipDecoratorLine l (some treeC1)))
      (injectLoggingCore srcC1 (some treeC1)) ∧
    emittedFor (mkCtx srcC1 (some treeC1)) 1 "@marker(log)" = [] :=
  ⟨(kept_lines_preserved_in_order srcC1 (some treeC1)).1,
   (kept_lines_preserved_in_order srcC1 (some treeC1)).2 1 "@marker(log)" (by decide)⟩

/-! ### Claim C2 -/

def srcC2 : String :=
  "from commentlogger import marker\n@marker(log)\ndef f():\n    x = 1 #\n"

def treeC2 : List PyStmt :=
  [PyStmt.importFrom "commentlogger" [("marker", none)],
   PyStmt.functionDef false "f"
     [PyExpr.call (PyExpr.name "marker") [PyExpr.name "log"]] 3 (some 4),
   PyStmt.other]

/-- C2 counterexample: on line 4 (`    x = 1 #`, 0-based index 3) of an
instrumented function the trailing comment text is empty, yet a log
statement `    log.info("")` is injected before the line — the claimed
"comment is non-empty" conjunct is not part of the code's condition. -/
theorem injection_despite_empty_comment_cex :
    commentTextOf "    x = 1 #" = "" ∧
    emittedFor (mkCtx srcC2 (some treeC2)) 3 "    x = 1 #" =
      ["    log.info(\"\")", "    x = 1 #"] ∧
    injectLoggingCore srcC2 (some treeC2) =
      ["from commentlogger import marker", "import logging", "",
       "def f():", "    log.info(\"\")", "    x = 1 #"] := by
  decide

/-- C2 (amended): for a line not consumed by the decorator filter, the
log statement is injected before the line if and only if the line
contains a `#` character (the comment text itself may be empty), the
portion preceding the first `#` (stripped) is non-empty, the enclosing
function looked up by the 1-based line number is in the instrumented set,
and that preceding portion contains no `@`; otherwise the line is emitted
alone. -/
theorem injection_condition_characterization (ctx : Ctx) (i : Nat) (line : String)
    (hsk : shouldSkipDecoratorLine line ctx.tree = false) :
    (emittedFor ctx i line = [logStatementFor ctx line, line] ↔
      (line.data.contains '#' = true ∧ preCommentCodeOf line ≠ "" ∧
       (∃ f, currFuncOf ctx i = some f ∧ ctx.decoratedFunctions.contains f = true) ∧
       (preCommentCodeOf line).data.contains '@' = false)) ∧
    (injectHere ctx i line = false → emittedFor ctx i line = [line]) := by
  have hem : emittedFor ctx i line =
      if injectHere ctx i line then [logStatementFor ctx line, line] else [line] := by
    simp [emittedFor, hsk]
  constructor
  · constructor
    · intro h
      cases hj : injectHere ctx i line
      · rw [hem, hj] at h
        simp at h
      · have hj' := hj
        unfold injectHere at hj'
        simp only [Bool.and_eq_true, Bool.not_eq_true'] at hj'
        obtain ⟨⟨⟨hc, hne⟩, hfun⟩, hat⟩ := hj'
        refine ⟨hc, (data_isEmpty_false_iff _).mp hne, ?_, hat⟩
        cases hcf : currFuncOf ctx i with
        | none => rw [hcf] at hfun; cases hfun
        | some f =>
          rw [hcf] at hfun
          exact ⟨f, rfl, hfun⟩
    · intro h
      obtain ⟨h1, h2, ⟨f, hf, hcont⟩, h4⟩ := h
      have hj : injectHere ctx i line = true := by
        unfold injectHere
        rw [hf]
        have h1' : '#' ∈ line.data := by simpa using h1
        have h4' : '@' ∉ (preCommentCodeOf line).data := by simpa using h4
        have hcont' : f ∈ ctx.decoratedFunctions := by simpa using hcont
        simp [h1', hcont', h4', (data_isEmpty_false_iff _).mpr h2]
      rw [hem, hj]
      simp
  · intro h
    rw [hem, h]
    simp

/-- Witness for C2's amended theorem: a line with a non-empty comment
inside the instrumented function of `srcC2` receives an injection, all
four conditions being discharged concretely. -/
theorem injection_condition_witness :
    shouldSkipDecoratorLine "    y = 2  # warn: low" (some treeC2) = false ∧
    emittedFor (mkCtx srcC2 (some treeC2)) 3 "    y = 2  # warn: low" =
      [logStatementFor (mkCtx srcC2 (some treeC2)) "    y = 2  # warn: low",
       "    y = 2  # warn: low"] := by
  refine ⟨by decide, ?_⟩
  exact ((injection_condition_characterization (mkCtx srcC2 (some treeC2)) 3
      "    y = 2  # warn: low" (by decide)).1).mpr
    ⟨by decide, by decide, ⟨"f", by decide, by decide⟩, by decide⟩

/-! ### Claim C3 -/

def srcC3 : String :=
  "from commentlogger import marker\n@marker()\ndef h():\n    pass\n"

/-- The walk sequence of `srcC3`: the decorator call has no arguments, so
no function is instrumented. -/
def treeC3 : List PyStmt :=
  [PyStmt.importFrom "commentlogger" [("marker", none)],
   PyStmt.functionDef false "h" [PyExpr.call (PyExpr.name "marker") []] 3 (some 4),
   PyStmt.other]

/-- C3 counterexample: `srcC3` has zero instrumented functions, yet the
returned text is not the input plus at most the bootstrap: the
marker-decorator line `@marker()` is dropped from the output (and the
input's trailing newline is not reproduced by the join). -/
theorem zero_instrumented_not_identity_cex :
    (extractLoggerInfo (some treeC3)).2 = [] ∧
    "@marker()" ∈ splitlines srcC3 ∧
    injectLoggingCore srcC3 (some treeC3) =
      ["from commentlogger import marker", "import logging", "",
       "def h():", "    pass"] ∧
    "@marker()" ∉ injectLoggingCore srcC3 (some treeC3) ∧
    injectLogging srcC3 (some treeC3) ≠ srcC3 := by
  decide

/-- C3 (amended): with zero instrumented functions the output is the
input's line sequence with marker-decorator lines dropped and, at most,
the import bootstrap pair inserted at one position (so in particular no
log statement is ever injected); the returned text is the newline-join of
these lines, which does not reproduce a trailing newline of the input. -/
theorem zero_instrumented_preservation (src : String) (tree : Option (List PyStmt))
    (h : (extractLoggerInfo tree).2 = []) :
    injectLoggingCore src tree =
      (splitlines src).filter (fun l => !shouldSkipDecoratorLine l tree) ∨
    ∃ n, injectLoggingCore src tree =
      ((splitlines src).take n).filter (fun l => !shouldSkipDecoratorLine l tree) ++
      ["import logging", ""] ++
      ((splitlines src).drop n).filter (fun l => !shouldSkipDecoratorLine l tree) :=
  run_no_instr src tree h

/-- Witness for C3's amended theorem on the uninstrumented file
`"x = 1\n"`, whose lines pass through the filter unchanged. -/
theorem zero_instrumented_preservation_witness :
    (extractLoggerInfo (some [PyStmt.other])).2 = [] ∧
    (injectLoggingCore "x = 1\n" (some [PyStmt.other]) =
      (splitlines "x = 1\n").filter
        (fun l => !shouldSkipDecoratorLine l (some [PyStmt.other])) ∨
    ∃ n, injectLoggingCore "x = 1\n" (some [PyStmt.other]) =
      ((splitlines "x = 1\n").take n).filter
        (fun l => !shouldSkipDecoratorLine l (some [PyStmt.other])) ++
      ["import logging", ""] ++
      ((splitlines "x = 1\n").drop n).filter
        (fun l => !shouldSkipDecoratorLine l (some [PyStmt.other]))) :=
  ⟨by decide, zero_instrumented_preservation "x = 1\n" (some [PyStmt.other]) (by decide)⟩

/-! ### Claim C4 -/

def srcC4 : String := "x = 1\ny = 2"

def treeC4 : List PyStmt := [PyStmt.other, PyStmt.other]

/-- C4 counterexample: `x = 1` is the first non-blank, non-comment,
non-docstring-opening line of the file and the facility is unimported,
but the bootstrap is NOT inserted before it — it lands before `y = 2`,
the first qualifying line of index `> 0`. -/
theorem bootstrap_not_before_first_line_cex :
    bootstrapQualifies "x = 1" = true ∧
    strContains srcC4 "import logging" = false ∧
    splitlines srcC4 = ["x = 1", "y = 2"] ∧
    injectLoggingCore srcC4 (some treeC4) =
      ["x = 1", "import logging", "", "y = 2"] ∧
    injectLoggingCore srcC4 (some treeC4) ≠
      ["import logging", "", "x = 1", "y = 2"] := by
  decide

/-- C4 (amended): the bootstrap pair `import logging` plus a blank line
is inserted at most once, eagerly and independently of any later
injection, exactly at the first (index, line) position whose 0-based
index is at least 1 and whose line qualifies — never before the file's
first line — and only if the source does not contain the substring
`import logging`; if the substring is present the run is the plain
concatenation of the per-line contributions. -/
theorem bootstrap_insertion_characterization (src : String) (tree : Option (List PyStmt)) :
    (∀ p : Nat × String, bootstrapTrigger (mkCtx src tree) p =
       (!strContains src "import logging" && bootstrapQualifies p.2 &&
        Nat.ble 1 p.1)) ∧
    (strContains src "import logging" = true →
       injectLoggingCore src tree =
         flatEmit (mkCtx src tree) (idxFrom 0 (splitlines src))) ∧
    (strContains src "import logging" = false →
       (match (idxFrom 0 (splitlines src)).dropWhile
           (fun p => !bootstrapTrigger (mkCtx src tree) p) with
        | [] => injectLoggingCore src tree =
            flatEmit (mkCtx src tree) (idxFrom 0 (splitlines src))
        | q :: rest => injectLoggingCore src tree =
            flatEmit (mkCtx src tree) ((idxFrom 0 (splitlines src)).takeWhile
              (fun p => !bootstrapTrigger (mkCtx src tree) p)) ++
            ["import logging", ""] ++ emittedFor (mkCtx src tree) q.1 q.2 ++
            flatEmit (mkCtx src tree) rest)) := by
  refine ⟨fun p => rfl, ?_, ?_⟩
  · intro himp
    have hfold := foldA (mkCtx src tree) (idxFrom 0 (splitlines src)) [] false
      (by rw [show (mkCtx src tree).importsLogging = true from himp]; rfl)
    unfold injectLoggingCore
    rw [hfold, List.nil_append]
  · intro himp
    have hfold := foldB (mkCtx src tree) himp (idxFrom 0 (splitlines src)) []
    cases hd : (idxFrom 0 (splitlines src)).dropWhile
        (fun p => !bootstrapTrigger (mkCtx src tree) p) with
    | nil =>
      rw [hd] at hfold
      simp only [] at hfold
      unfold injectLoggingCore
      rw [hfold, List.nil_append]
    | cons q rest =>
      rw [hd] at hfold
      simp only [] at hfold
      unfold injectLoggingCore
      rw [hfold]
      simp [List.append_assoc]

/-- Witness for C4's amended theorem at `srcC4`: the facility substring
is absent, the bootstrap point is the pair `(1, "y = 2")`, and the
output indeed carries the bootstrap exactly there. -/
theorem bootstrap_insertion_witness :
    strContains srcC4 "import logging" = false ∧
    (idxFrom 0 (splitlines srcC4)).dropWhile
      (fun p => !bootstrapTrigger (mkCtx srcC4 (some treeC4)) p) =
      [(1, "y = 2")] ∧
    injectLoggingCore srcC4 (some treeC4) =
      ["x = 1", "import logging", "", "y = 2"] := by
  refine ⟨by decide, by decide, ?_⟩
  have h := (bootstrap_insertion_characterization srcC4 (some treeC4)).2.2 (by decide)
  have hd : (idxFrom 0 (splitlines srcC4)).dropWhile
      (fun p => !bootstrapTrigger (mkCtx srcC4 (some treeC4)) p) =
      [(1, "y = 2")] := by decide
  rw [hd] at h
  simp only [] at h
  rw [h]
  decide

/-! ### Claim C7 -/

/-- C7: a failed structural parse degrades to no logger name and an empty
instrumented set, the line-to-function map sends every line number to
nothing, and the rewrite still runs to completion injecting nothing: the
output is the input's lines with, at most, the bootstrap pair inserted at
one position. -/
theorem parse_failure_degrades_gracefully (src : String) (n : Nat) :
    extractLoggerInfo none = (none, []) ∧
    (mkCtx src none).lineToFun n = none ∧
    (injectLoggingCore src none = splitlines src ∨
     ∃ k, injectLoggingCore src none =
       (splitlines src).take k ++ ["import logging", ""] ++
       (splitlines src).drop k) := by
  refine ⟨rfl, rfl, ?_⟩
  have hfil : ∀ l : List String,
      l.filter (fun x => !shouldSkipDecoratorLine x none) = l := by
    intro l
    apply List.filter_eq_self.mpr
    intro a _
    simp [skip_none]
  rcases run_no_instr src none rfl with h | ⟨k, h⟩
  · left
    rw [h, hfil]
  · right
    refine ⟨k, ?_⟩
    rw [h, hfil, hfil]
